import Mathlib

/-!
Verification of the go-spring/gs-mock call-interception and dispatch core.

The Go sources are shallowly embedded:

* `GoVal` models a Go `any` value (the generic argument/result representation);
  `GoType` models a Go result type as a decoder plus its zero value, and
  `typeAssert` models the two-valued type assertion `r, _ = v.(R)`.
* `Mocker` models the behavior-record structs generated per arity
  (`fnHandle` / `fnWhen` / `fnReturn` fields); the `Invoker` namespace holds
  the interface methods the generated `InvokerNM` wrappers derive from those
  fields (`Mode`, `When`, plus runners for `Return` and `Handle`; the runners
  are named `ReturnRun` / `HandleRun` because the Lean namespace already uses
  the bare names for the configuration setters).
* Go panics are modelled as `Except.error`; a nil Go function stored in a
  record field is `none`.
* `gsmock.Invoke` embeds the dispatch loop of `gsmock/mock.go` (pending
  handler slot, first-matching conditional wins, duplicate-handler panic);
  `testing.Testing()` is threaded as an explicit boolean input.
* `fnmock` embeds the funcKey-based engine (receiver identity + function PC)
  of the function-level variant.
-/

/-- Model of a Go `any` value stored in the engine's `[]any` lists. -/
inductive GoVal where
  | vint : Int → GoVal
  | vstr : String → GoVal
  | vbool : Bool → GoVal
  | vnil : GoVal
deriving DecidableEq, Repr

/-- Model of a Go result type: how to read it out of an `any` value, and its
zero value, used by the two-valued type assertion. -/
structure GoType (α : Type) where
  dec : GoVal → Option α
  zero : α

/-- Model of the Go two-valued type assertion `r, _ = v.(R)`: the decoded
value when the dynamic type matches, the zero value of `R` otherwise. -/
def typeAssert {α : Type} (t : GoType α) (v : GoVal) : α :=
  match t.dec v with
  | some a => a
  | none => t.zero

/-- Model of a generated behavior record (`MockerNM` struct): an optional
custom handler, an optional predicate, and an optional fixed-result list
(`fnReturn` is a nullary producer in Go; in this pure embedding it is the
list of values it produces). `none` models a nil Go function field. -/
structure Mocker where
  fnHandle : Option (List GoVal → List GoVal)
  fnWhen : Option (List GoVal → Bool)
  fnReturn : Option (List GoVal)

/-- A freshly constructed record (`&MockerNM{}`): all fields nil. -/
def Mocker.empty : Mocker := ⟨none, none, none⟩

/-- Setter `Handle` of the generated mockers: stores the given function
(possibly nil) in `fnHandle`. -/
def Mocker.Handle (m : Mocker) (fn : Option (List GoVal → List GoVal)) : Mocker :=
  { m with fnHandle := fn }

/-- Setter `When` of the generated mockers: stores the predicate. -/
def Mocker.When (m : Mocker) (fn : List GoVal → Bool) : Mocker :=
  { m with fnWhen := some fn }

namespace mockpkg

/-- Setter `Return` of the `package mock` arity family embedded in `main.go`
(e.g. `Mocker12.Return`): it only stores the fixed-result producer and leaves
`fnWhen` untouched. -/
def Return (m : Mocker) (rv : List GoVal) : Mocker :=
  { m with fnReturn := some rv }

end mockpkg

namespace mockertmpl

/-- Setter `Return` of the mocker-template families
(`internal/mocker/template.go` and the mocker templates embedded in
`internal/assert/assert.go`): if no predicate has been set it first installs
the always-true predicate, then stores the fixed-result producer. -/
def Return (m : Mocker) (rv : List GoVal) : Mocker :=
  let m1 := match m.fnWhen with
    | none => { m with fnWhen := some (fun _ => true) }
    | some _ => m
  { m1 with fnReturn := some rv }

end mockertmpl

/-- The two mocking modes of an `Invoker` (`gsmock/mock.go`). -/
inductive Mode where
  | modeHandle : Mode
  | modeWhenReturn : Mode
deriving DecidableEq, Repr

/-- Method `InvokerNM.Mode` of the generated wrappers: Handle mode iff a
custom handler is installed. -/
def Invoker.Mode (m : Mocker) : Mode :=
  if m.fnHandle.isSome then Mode.modeHandle else Mode.modeWhenReturn

/-- Method `InvokerNM.When` of the generated wrappers: a nil predicate never
matches; otherwise evaluate it on the call arguments. -/
def Invoker.When (m : Mocker) (params : List GoVal) : Bool :=
  match m.fnWhen with
  | none => false
  | some f => f params

/-- Running `InvokerNM.Return`: calls the stored fixed-result producer; a nil
producer is a Go nil-function call, i.e. a panic. -/
def Invoker.ReturnRun (m : Mocker) : Except String (List GoVal) :=
  match m.fnReturn with
  | some rv => Except.ok rv
  | none => Except.error "runtime error: invalid memory address or nil pointer dereference"

/-- Running `InvokerNM.Handle`: calls the stored custom handler on the call
arguments; a nil handler is a Go nil-function call, i.e. a panic. -/
def Invoker.HandleRun (m : Mocker) (params : List GoVal) : Except String (List GoVal) :=
  match m.fnHandle with
  | some f => Except.ok (f params)
  | none => Except.error "runtime error: invalid memory address or nil pointer dereference"

/-- Lookup in an association list, modelling a Go map read (`m[k]`). -/
def assocFind {κ υ : Type} [DecidableEq κ] (k : κ) : List (κ × υ) → Option υ
  | [] => none
  | (k1, v) :: rest => if k = k1 then some v else assocFind k rest

/-- The dispatch loop of `gsmock/mock.go`'s `Invoke`: walk the registered
records in order keeping a single pending-handler slot; a second Handle-mode
record panics with a message naming the call site (`label`); the first
matching conditional record fires immediately; after the scan the pending
handler, if any, is executed on the arguments. -/
def scanInvokers (label : String) (params : List GoVal) :
    List Mocker → Option Mocker → Except String (List GoVal × Bool)
  | [], pending =>
    match pending with
    | some h =>
      match Invoker.HandleRun h params with
      | Except.ok rs => Except.ok (rs, true)
      | Except.error e => Except.error e
    | none => Except.ok ([], false)
  | f :: rest, pending =>
    match Invoker.Mode f with
    | Mode.modeHandle =>
      match pending with
      | some _ => Except.error ("found multiple Handle functions for " ++ label)
      | none => scanInvokers label params rest (some f)
    | Mode.modeWhenReturn =>
      if Invoker.When f params then
        match Invoker.ReturnRun f with
        | Except.ok rs => Except.ok (rs, true)
        | Except.error e => Except.error e
      else scanInvokers label params rest pending

namespace gsmock

/-- Identity `mockerKey`: a call-site identity made of a reflected type (modelled by
its name) and a method name. -/
structure mockerKey where
  typ : String
  method : String
deriving DecidableEq, Repr

/-- Registry `Manager`: mapping call-site identities to ordered record
lists (a Go map modelled as an association list where the most recent binding
for a key shadows older ones). -/
structure Manager where
  mockers : List (mockerKey × List Mocker)

/-- Constructor `NewManager`: an empty registry. -/
def NewManager : Manager := ⟨[]⟩

/-- Method `Manager.Reset`: replace the map by a fresh empty one. -/
def Manager.Reset (_ : Manager) : Manager := ⟨[]⟩

/-- Method `Manager.getMockers`: all records registered for a type and method. -/
def Manager.getMockers (r : Manager) (typ method : String) : List Mocker :=
  (assocFind ⟨typ, method⟩ r.mockers).getD []

/-- Method `Manager.addMocker`: append a record to the identity's list. -/
def Manager.addMocker (r : Manager) (typ method : String) (i : Mocker) : Manager :=
  ⟨(⟨typ, method⟩, r.getMockers typ method ++ [i]) :: r.mockers⟩

/-- Dispatch entry point `gsmock.Invoke`. A nil manager, or running
outside the Go testing framework, yields `(nil, false)` immediately;
otherwise the registered records for the identity are scanned. -/
def Invoke (r : Option Manager) (testing : Bool) (typ method : String)
    (params : List GoVal) : Except String (List GoVal × Bool) :=
  match r, testing with
  | none, _ => Except.ok ([], false)
  | some _, false => Except.ok ([], false)
  | some mgr, true =>
      scanInvokers (typ ++ "." ++ method) params (mgr.getMockers typ method) none

/-- Keys stored in a context carrier: the package's private manager key or an
unrelated key. -/
inductive CtxKey where
  | managerKey : CtxKey
  | extra : Nat → CtxKey
deriving DecidableEq

/-- Values stored in a context carrier. -/
inductive CtxVal where
  | manager : Manager → CtxVal
  | extra : Nat → CtxVal

/-- A context carrier: a chain of key/value bindings, newest first
(`context.WithValue` wraps, `Value` searches from the newest binding). -/
def Context := List (CtxKey × CtxVal)

/-- Model of `context.WithValue`: derive a carrier with one more binding. -/
def WithValue (ctx : Context) (k : CtxKey) (v : CtxVal) : Context :=
  (k, v) :: ctx

/-- Model of `ctx.Value`: the newest binding for a key, if any. -/
def Context.Value (ctx : Context) (k : CtxKey) : Option CtxVal :=
  assocFind k ctx

/-- Retrieval `getManager`: retrieve the Manager bound in the context, nil if absent. -/
def getManager (ctx : Context) : Option Manager :=
  match ctx.Value CtxKey.managerKey with
  | some (CtxVal.manager r) => some r
  | _ => none

/-- Method `Manager.BindTo`: a new context with the Manager attached under the
package's private key. -/
def Manager.BindTo (r : Manager) (ctx : Context) : Context :=
  WithValue ctx CtxKey.managerKey (CtxVal.manager r)

/-- Wrapper `gsmock.InvokeContext`: outside the testing framework yield
`(nil, false)`; otherwise retrieve the Manager from the context and invoke. -/
def InvokeContext (ctx : Context) (testing : Bool) (typ method : String)
    (params : List GoVal) : Except String (List GoVal × Bool) :=
  match testing with
  | false => Except.ok ([], false)
  | true => Invoke (getManager ctx) testing typ method params

end gsmock

namespace fnmock

/-- Composite key `funcKey`: identity of the function-level variant — the
receiver instance (nil, or a concrete instance modelled by its pointer
identity) and the function's program counter. -/
structure funcKey where
  receiver : Option Nat
  fnPC : Nat
deriving DecidableEq, Repr

/-- Constructor `newFuncKey`: build the composite key from receiver and function. -/
def newFuncKey (receiver : Option Nat) (fnPC : Nat) : funcKey :=
  ⟨receiver, fnPC⟩

/-- The `Invoker` interface of the function-level variant: a single `Invoke`
method returning the mocked results and a matched flag. -/
structure Invoker where
  Invoke : List GoVal → List GoVal × Bool

/-- Registry `Manager` of the function-level variant: records keyed by `funcKey`. -/
structure Manager where
  mockers : List (funcKey × List Invoker)

/-- Constructor `NewManager`: an empty registry. -/
def NewManager : Manager := ⟨[]⟩

/-- Read of the Go map `r.mockers[k]` (missing key yields the empty list). -/
def Manager.get (r : Manager) (k : funcKey) : List Invoker :=
  (assocFind k r.mockers).getD []

/-- Method `Manager.addInvoker`: append a record under `newFuncKey receiver fn`. -/
def Manager.addInvoker (r : Manager) (receiver : Option Nat) (fnPC : Nat)
    (i : Invoker) : Manager :=
  ⟨(newFuncKey receiver fnPC, r.get (newFuncKey receiver fnPC) ++ [i]) :: r.mockers⟩

/-- The scan loop of the function-level `Invoke`: first record whose `Invoke`
reports a match wins. -/
def InvokeLoop (params : List GoVal) : List Invoker → List GoVal × Bool
  | [] => ([], false)
  | m :: rest =>
    match m.Invoke params with
    | (ret, true) => (ret, true)
    | (_, false) => InvokeLoop params rest

/-- Dispatch `fnmock.Invoke`: lookup for the identity `newFuncKey receiver fn`. -/
def Invoke (r : Manager) (receiver : Option Nat) (fnPC : Nat)
    (params : List GoVal) : List GoVal × Bool :=
  InvokeLoop params (r.get (newFuncKey receiver fnPC))

end fnmock

/-- Helper `gsmock.Unbox1`: exact-arity unboxing of one result with defensive
type assertion; wrong arity panics naming expected and actual counts. -/
def Unbox1 {α : Type} (t1 : GoType α) (ret : List GoVal) : Except String α :=
  match ret with
  | [v1] => Except.ok (typeAssert t1 v1)
  | _ => Except.error ("Warning: expected 1 return value, but got " ++ toString ret.length)

/-- Helper `gsmock.Unbox2`: exact-arity unboxing of two results. -/
def Unbox2 {α β : Type} (t1 : GoType α) (t2 : GoType β) (ret : List GoVal) :
    Except String (α × β) :=
  match ret with
  | [v1, v2] => Except.ok (typeAssert t1 v1, typeAssert t2 v2)
  | _ => Except.error ("Warning: expected 2 return values, but got " ++ toString ret.length)

/-- Helper `gsmock.Unbox3`: exact-arity unboxing of three results. -/
def Unbox3 {α β γ : Type} (t1 : GoType α) (t2 : GoType β) (t3 : GoType γ)
    (ret : List GoVal) : Except String (α × β × γ) :=
  match ret with
  | [v1, v2, v3] => Except.ok (typeAssert t1 v1, typeAssert t2 v2, typeAssert t3 v3)
  | _ => Except.error ("Warning: expected 3 return values, but got " ++ toString ret.length)

/-- Helper `gsmock.Unbox4`: exact-arity unboxing of four results. -/
def Unbox4 {α β γ δ : Type} (t1 : GoType α) (t2 : GoType β) (t3 : GoType γ)
    (t4 : GoType δ) (ret : List GoVal) : Except String (α × β × γ × δ) :=
  match ret with
  | [v1, v2, v3, v4] =>
      Except.ok (typeAssert t1 v1, typeAssert t2 v2, typeAssert t3 v3, typeAssert t4 v4)
  | _ => Except.error ("Warning: expected 4 return values, but got " ++ toString ret.length)

/-- Helper `gsmock.Unbox5`: exact-arity unboxing of five results. -/
def Unbox5 {α β γ δ ε : Type} (t1 : GoType α) (t2 : GoType β) (t3 : GoType γ)
    (t4 : GoType δ) (t5 : GoType ε) (ret : List GoVal) :
    Except String (α × β × γ × δ × ε) :=
  match ret with
  | [v1, v2, v3, v4, v5] =>
      Except.ok (typeAssert t1 v1, typeAssert t2 v2, typeAssert t3 v3,
        typeAssert t4 v4, typeAssert t5 v5)
  | _ => Except.error ("Warning: expected 5 return values, but got " ++ toString ret.length)

/-! Helper lemmas about the embedded operations. -/

theorem assocFind_head {κ υ : Type} [DecidableEq κ] (k : κ) (v : υ) (l : List (κ × υ)) :
    assocFind k ((k, v) :: l) = some v := by
  simp [assocFind]

theorem assocFind_ne {κ υ : Type} [DecidableEq κ] {k k1 : κ} (hne : k ≠ k1) (v : υ)
    (l : List (κ × υ)) : assocFind k ((k1, v) :: l) = assocFind k l := by
  simp [assocFind, hne]

theorem mode_handle_of_fnHandle {m : Mocker} {f : List GoVal → List GoVal}
    (h : m.fnHandle = some f) : Invoker.Mode m = Mode.modeHandle := by
  simp [Invoker.Mode, h]

theorem scan_nil_none (label : String) (params : List GoVal) :
    scanInvokers label params [] none = Except.ok ([], false) := rfl

theorem scan_nil_pending {h : Mocker} {f : List GoVal → List GoVal}
    (hf : h.fnHandle = some f) (label : String) (params : List GoVal) :
    scanInvokers label params [] (some h) = Except.ok (f params, true) := by
  simp [scanInvokers, Invoker.HandleRun, hf]

theorem scan_skip {x : Mocker} {params : List GoVal}
    (hmode : Invoker.Mode x = Mode.modeWhenReturn)
    (hwhen : Invoker.When x params = false)
    (label : String) (rest : List Mocker) (pending : Option Mocker) :
    scanInvokers label params (x :: rest) pending = scanInvokers label params rest pending := by
  simp [scanInvokers, hmode, hwhen]

theorem scan_fire {m : Mocker} {params rv : List GoVal}
    (hmode : Invoker.Mode m = Mode.modeWhenReturn)
    (hwhen : Invoker.When m params = true)
    (hret : m.fnReturn = some rv)
    (label : String) (rest : List Mocker) (pending : Option Mocker) :
    scanInvokers label params (m :: rest) pending = Except.ok (rv, true) := by
  simp [scanInvokers, hmode, hwhen, Invoker.ReturnRun, hret]

theorem scan_absorb {h : Mocker} (hmode : Invoker.Mode h = Mode.modeHandle)
    (label : String) (params : List GoVal) (rest : List Mocker) :
    scanInvokers label params (h :: rest) none = scanInvokers label params rest (some h) := by
  simp [scanInvokers, hmode]

theorem scan_dup {h : Mocker} (hmode : Invoker.Mode h = Mode.modeHandle)
    (label : String) (params : List GoVal) (rest : List Mocker) (h0 : Mocker) :
    scanInvokers label params (h :: rest) (some h0)
      = Except.error ("found multiple Handle functions for " ++ label) := by
  simp [scanInvokers, hmode]

theorem scan_append_skip {params : List GoVal} (label : String) :
    ∀ (pre : List Mocker) (rest : List Mocker) (pending : Option Mocker),
    (∀ x ∈ pre, Invoker.Mode x = Mode.modeWhenReturn ∧ Invoker.When x params = false) →
    scanInvokers label params (pre ++ rest) pending = scanInvokers label params rest pending := by
  intro pre
  induction pre with
  | nil => intro rest pending _; rfl
  | cons x pre ih =>
    intro rest pending hall
    have hx := hall x (List.mem_cons_self x pre)
    rw [List.cons_append, scan_skip hx.1 hx.2, ih rest pending]
    intro y hy
    exact hall y (List.mem_cons_of_mem x hy)

theorem scan_reach_fire {params rv : List GoVal} {m : Mocker} (label : String)
    (hmode : Invoker.Mode m = Mode.modeWhenReturn)
    (hwhen : Invoker.When m params = true)
    (hret : m.fnReturn = some rv) :
    ∀ (pre post : List Mocker) (pending : Option Mocker),
    (∀ x ∈ pre, Invoker.Mode x = Mode.modeWhenReturn → Invoker.When x params = false) →
    (pre.countP (fun x => decide (Invoker.Mode x = Mode.modeHandle))
        + (if pending.isSome then 1 else 0) ≤ 1) →
    scanInvokers label params (pre ++ m :: post) pending = Except.ok (rv, true) := by
  intro pre
  induction pre with
  | nil =>
    intro post pending _ _
    exact scan_fire hmode hwhen hret label post pending
  | cons x pre ih =>
    intro post pending hskip hcount
    by_cases hx : Invoker.Mode x = Mode.modeHandle
    · have hcons : (x :: pre).countP (fun y => decide (Invoker.Mode y = Mode.modeHandle))
          = pre.countP (fun y => decide (Invoker.Mode y = Mode.modeHandle)) + 1 := by
        simp [List.countP_cons, hx]
      rw [hcons] at hcount
      cases pending with
      | some p =>
        exfalso
        simp only [Option.isSome_some, if_true] at hcount
        omega
      | none =>
        rw [List.cons_append, scan_absorb hx]
        refine ih post (some x)
          (fun y hy hmy => hskip y (List.mem_cons_of_mem x hy)  hmy) ?_
        simp only [Option.isSome_some, if_true]
        simp only [Option.isSome_none, Bool.false_eq_true, if_false] at hcount
        omega
    · have hxmode : Invoker.Mode x = Mode.modeWhenReturn := by
        cases hmx : Invoker.Mode x with
        | modeHandle => exact absurd hmx hx
        | modeWhenReturn => rfl
      have hxwhen : Invoker.When x params = false :=
        hskip x (List.mem_cons_self x pre) hxmode
      have hcons : (x :: pre).countP (fun y => decide (Invoker.Mode y = Mode.modeHandle))
          = pre.countP (fun y => decide (Invoker.Mode y = Mode.modeHandle)) := by
        simp [List.countP_cons, hx]
      rw [hcons] at hcount
      rw [List.cons_append, scan_skip hxmode hxwhen]
      exact ih post pending
        (fun y hy hmy => hskip y (List.mem_cons_of_mem x hy) hmy) hcount

theorem getMockers_addMocker_self (r : gsmock.Manager) (typ method : String) (i : Mocker) :
    (r.addMocker typ method i).getMockers typ method = r.getMockers typ method ++ [i] := by
  simp [gsmock.Manager.addMocker, gsmock.Manager.getMockers, assocFind_head]

theorem string_append_empty (s : String) : s ++ "" = s := by simp

/-! Claim theorems. -/

/-- C1: for a Manager holding Conditional (When+Return) records under one
call-site identity, on any argument list the earliest-registered matching
Conditional record fires: `Invoke` runs its return-producer and yields
`(results, true)`, and the records registered after it (`post`, Conditional
or Handler) are never consulted — the result does not depend on them. -/
theorem C1_first_match_wins (typ method : String) (params rv : List GoVal)
    (r : gsmock.Manager) (pre post : List Mocker) (m : Mocker)
    (hlist : r.getMockers typ method = pre ++ m :: post)
    (hpre : ∀ x ∈ pre, Invoker.Mode x = Mode.modeWhenReturn → Invoker.When x params = false)
    (hhandlers : pre.countP (fun x => decide (Invoker.Mode x = Mode.modeHandle)) ≤ 1)
    (hmode : Invoker.Mode m = Mode.modeWhenReturn)
    (hwhen : Invoker.When m params = true)
    (hret : m.fnReturn = some rv) :
    gsmock.Invoke (some r) true typ method params = Except.ok (rv, true) := by
  simp only [gsmock.Invoke]
  rw [hlist]
  exact scan_reach_fire (typ ++ "." ++ method) hmode hwhen hret pre post none hpre
    (by simpa using hhandlers)

theorem C1_first_match_wins_witness :
    Invoker.When (⟨none, some (fun _ => true), some [GoVal.vint 1]⟩ : Mocker) [GoVal.vint 5] = true ∧
    gsmock.Invoke
      (some ⟨[(⟨"T", "M"⟩,
        [⟨none, some (fun _ => true), some [GoVal.vint 1]⟩,
         ⟨none, some (fun _ => true), some [GoVal.vint 2]⟩])]⟩)
      true "T" "M" [GoVal.vint 5] = Except.ok ([GoVal.vint 1], true) :=
  ⟨rfl,
    C1_first_match_wins "T" "M" [GoVal.vint 5] [GoVal.vint 1] _
      [] [⟨none, some (fun _ => true), some [GoVal.vint 2]⟩]
      ⟨none, some (fun _ => true), some [GoVal.vint 1]⟩
      (by simp [gsmock.Manager.getMockers, assocFind])
      (by simp) (by simp) rfl rfl rfl⟩

/-- C2: when a Handler-mode record coexists with Conditional records under
one identity, the Handler is only a pending fallback. First conjunct: if some
Conditional record matches the arguments, the earliest matching one's results
are returned and the Handler never runs, whether it was registered before the
matching record (inside `pre`) or after it (inside `post`). Second conjunct:
if no Conditional record matches, the pending Handler is executed on the call
arguments and its results are returned with handled = true. -/
theorem C2_handler_vs_conditional :
    (∀ (typ method : String) (params rv : List GoVal) (r : gsmock.Manager)
        (pre post : List Mocker) (c : Mocker),
      r.getMockers typ method = pre ++ c :: post →
      (∀ x ∈ pre, Invoker.Mode x = Mode.modeWhenReturn → Invoker.When x params = false) →
      pre.countP (fun x => decide (Invoker.Mode x = Mode.modeHandle)) ≤ 1 →
      Invoker.Mode c = Mode.modeWhenReturn →
      Invoker.When c params = true →
      c.fnReturn = some rv →
      gsmock.Invoke (some r) true typ method params = Except.ok (rv, true)) ∧
    (∀ (typ method : String) (params : List GoVal) (f : List GoVal → List GoVal)
        (r : gsmock.Manager) (pre post : List Mocker) (h : Mocker),
      r.getMockers typ method = pre ++ h :: post →
      h.fnHandle = some f →
      (∀ x ∈ pre ++ post, Invoker.Mode x = Mode.modeWhenReturn ∧ Invoker.When x params = false) →
      gsmock.Invoke (some r) true typ method params = Except.ok (f params, true)) := by
  constructor
  · intro typ method params rv r pre post c hlist hpre hhandlers hmode hwhen hret
    simp only [gsmock.Invoke]
    rw [hlist]
    exact scan_reach_fire (typ ++ "." ++ method) hmode hwhen hret pre post none hpre
      (by simpa using hhandlers)
  · intro typ method params f r pre post h hlist hf hall
    simp only [gsmock.Invoke]
    rw [hlist]
    have hpre : ∀ x ∈ pre, Invoker.Mode x = Mode.modeWhenReturn ∧ Invoker.When x params = false :=
      fun x hx => hall x (List.mem_append_left post hx)
    have hpost : ∀ x ∈ post, Invoker.Mode x = Mode.modeWhenReturn ∧ Invoker.When x params = false :=
      fun x hx => hall x (List.mem_append_right pre hx)
    rw [scan_append_skip (typ ++ "." ++ method) pre (h :: post) none hpre]
    rw [scan_absorb (mode_handle_of_fnHandle hf)]
    have hdrop := scan_append_skip (typ ++ "." ++ method) post [] (some h) hpost
    rw [List.append_nil] at hdrop
    rw [hdrop]
    exact scan_nil_pending hf (typ ++ "." ++ method) params

theorem C2_handler_vs_conditional_witness :
    (⟨some (fun _ => [GoVal.vint 9]), none, none⟩ : Mocker).fnHandle
      = some (fun _ => [GoVal.vint 9]) ∧
    gsmock.Invoke
      (some ⟨[(⟨"T", "M"⟩,
        [⟨none, some (fun _ => false), some [GoVal.vint 1]⟩,
         ⟨some (fun _ => [GoVal.vint 9]), none, none⟩])]⟩)
      true "T" "M" [GoVal.vint 0] = Except.ok ([GoVal.vint 9], true) :=
  ⟨rfl,
    C2_handler_vs_conditional.2 "T" "M" [GoVal.vint 0] (fun _ => [GoVal.vint 9]) _
      [⟨none, some (fun _ => false), some [GoVal.vint 1]⟩] []
      ⟨some (fun _ => [GoVal.vint 9]), none, none⟩
      (by simp [gsmock.Manager.getMockers, assocFind])
      rfl
      (by intro x hx; simp at hx; subst hx; exact ⟨rfl, rfl⟩)⟩

/-- C3: registering two Handler-mode records for one call-site identity
succeeds (the registry then holds both, in order), and the next dispatch on
that identity panics with a message containing the identity's human-readable
label `typ.method`: the error is raised at dispatch time, not registration
time. -/
theorem C3_duplicate_handler_panics (r : gsmock.Manager) (typ method : String)
    (h1 h2 : Mocker) (params : List GoVal)
    (hempty : r.getMockers typ method = [])
    (hm1 : Invoker.Mode h1 = Mode.modeHandle)
    (hm2 : Invoker.Mode h2 = Mode.modeHandle) :
    ((r.addMocker typ method h1).addMocker typ method h2).getMockers typ method = [h1, h2] ∧
    ∃ msg : String,
      gsmock.Invoke (some ((r.addMocker typ method h1).addMocker typ method h2))
          true typ method params = Except.error msg ∧
      ∃ s t : String, msg = s ++ (typ ++ "." ++ method) ++ t := by
  have hreg : ((r.addMocker typ method h1).addMocker typ method h2).getMockers typ method
      = [h1, h2] := by
    rw [getMockers_addMocker_self, getMockers_addMocker_self, hempty]
    rfl
  refine ⟨hreg, "found multiple Handle functions for " ++ (typ ++ "." ++ method), ?_,
    "found multiple Handle functions for ", "", ?_⟩
  · simp only [gsmock.Invoke]
    rw [hreg, scan_absorb hm1, scan_dup hm2]
  · rw [string_append_empty]

theorem C3_duplicate_handler_panics_witness :
    gsmock.NewManager.getMockers "T" "M" = [] ∧
    (((gsmock.NewManager.addMocker "T" "M" ⟨some (fun ps => ps), none, none⟩).addMocker
        "T" "M" ⟨some (fun ps => ps), none, none⟩).getMockers "T" "M"
      = [⟨some (fun ps => ps), none, none⟩, ⟨some (fun ps => ps), none, none⟩] ∧
    ∃ msg : String,
      gsmock.Invoke
        (some ((gsmock.NewManager.addMocker "T" "M" ⟨some (fun ps => ps), none, none⟩).addMocker
          "T" "M" ⟨some (fun ps => ps), none, none⟩)) true "T" "M" []
        = Except.error msg ∧
      ∃ s t : String, msg = s ++ ("T" ++ "." ++ "M") ++ t) :=
  ⟨rfl,
    C3_duplicate_handler_panics gsmock.NewManager "T" "M"
      ⟨some (fun ps => ps), none, none⟩ ⟨some (fun ps => ps), none, none⟩ []
      rfl rfl rfl⟩

/-- C4: if the Manager passed to `Invoke` is absent (nil), dispatch returns
empty results and handled = false immediately — for every identity, argument
list and testing state, and without panicking. -/
theorem C4_nil_manager_inert (testing : Bool) (typ method : String) (params : List GoVal) :
    gsmock.Invoke none testing typ method params = Except.ok ([], false) := by
  cases testing <;> rfl

/-- C5: a record configured via `Handle` with a nil handler function behaves
as if no handler were installed: dispatching an identity whose only record is
`Mocker.Handle Mocker.empty none` yields handled = false for every argument
list, and never panics. -/
theorem C5_nil_handler_degrades (typ method : String) (params : List GoVal)
    (rest : List (gsmock.mockerKey × List Mocker)) :
    gsmock.Invoke (some ⟨(⟨typ, method⟩, [Mocker.Handle Mocker.empty none]) :: rest⟩)
        true typ method params = Except.ok ([], false) := by
  simp only [gsmock.Invoke, gsmock.Manager.getMockers, assocFind_head, Option.getD_some]
  rw [scan_skip
    (show Invoker.Mode (Mocker.Handle Mocker.empty none) = Mode.modeWhenReturn from rfl)
    (show Invoker.When (Mocker.Handle Mocker.empty none) params = false from rfl)]
  exact scan_nil_none (typ ++ "." ++ method) params

/-- C6: the call-site identity of the function-level engine incorporates the
receiver instance: registering a record for one receiver (`some b`) leaves
dispatch for any distinct receiver (`some a`) completely unchanged — the
other receiver's record is never selected or executed. -/
theorem C6_receiver_isolation (r : fnmock.Manager) (a b fnA fnB : Nat)
    (i : fnmock.Invoker) (params : List GoVal) (hne : a ≠ b) :
    fnmock.Invoke (r.addInvoker (some b) fnB i) (some a) fnA params
      = fnmock.Invoke r (some a) fnA params := by
  have hkey : fnmock.newFuncKey (some a) fnA ≠ fnmock.newFuncKey (some b) fnB := by
    intro h
    apply hne
    have hrecv := congrArg fnmock.funcKey.receiver h
    simpa [fnmock.newFuncKey] using hrecv
  simp only [fnmock.Invoke, fnmock.Manager.get, fnmock.Manager.addInvoker]
  rw [assocFind_ne hkey]

theorem C6_receiver_isolation_witness :
    (1 : Nat) ≠ 2 ∧
    fnmock.Invoke
        (fnmock.NewManager.addInvoker (some 2) 0 ⟨fun _ => ([GoVal.vint 9], true)⟩)
        (some 1) 0 []
      = fnmock.Invoke fnmock.NewManager (some 1) 0 [] :=
  ⟨by decide,
    C6_receiver_isolation fnmock.NewManager 1 2 0 0 ⟨fun _ => ([GoVal.vint 9], true)⟩ []
      (by decide)⟩

/-- C7 counterexample: in the `package mock` arity family embedded in
`main.go` (`Mocker12.Return` and its siblings), calling `Return` on a fresh
record does NOT install an always-true predicate: the record's `When` rejects
a concrete argument list and dispatch leaves the call unhandled, refuting the
claim that a record configured with `Return` alone matches every argument
list. -/
theorem C7_return_alone_counterexample :
    Invoker.When (mockpkg.Return Mocker.empty [GoVal.vint 7]) [GoVal.vint 0] = false ∧
    gsmock.Invoke
        (some ⟨[(⟨"T", "M"⟩, [mockpkg.Return Mocker.empty [GoVal.vint 7]])]⟩)
        true "T" "M" [GoVal.vint 0] = Except.ok ([], false) :=
  ⟨rfl, rfl⟩

/-- C7 (amended): in the mocker-template families
(`internal/mocker/template.go` and the templates in
`internal/assert/assert.go`), `Return` on a record with no predicate installs
the always-true predicate, so a Return-only record matches every argument
list and dispatch yields its values with handled = true; in the
`package mock` arity family embedded in `main.go` (e.g. `Mocker12.Return`),
`Return` leaves the predicate unset and a Return-only record matches no
argument list. -/
theorem C7_return_default_when_amended (typ method : String) (params rv : List GoVal)
    (rest : List (gsmock.mockerKey × List Mocker)) :
    Invoker.When (mockertmpl.Return Mocker.empty rv) params = true ∧
    gsmock.Invoke (some ⟨(⟨typ, method⟩, [mockertmpl.Return Mocker.empty rv]) :: rest⟩)
        true typ method params = Except.ok (rv, true) ∧
    Invoker.When (mockpkg.Return Mocker.empty rv) params = false := by
  refine ⟨rfl, ?_, rfl⟩
  simp only [gsmock.Invoke, gsmock.Manager.getMockers, assocFind_head, Option.getD_some]
  exact scan_fire
    (show Invoker.Mode (mockertmpl.Return Mocker.empty rv) = Mode.modeWhenReturn from rfl)
    (show Invoker.When (mockertmpl.Return Mocker.empty rv) params = true from rfl)
    (show (mockertmpl.Return Mocker.empty rv).fnReturn = some rv from rfl)
    (typ ++ "." ++ method) [] none

/-- C8: the unboxing helpers `Unbox1` .. `Unbox5` require an exact arity
match: on a result slice of length N they return the N slot values converted
by defensive type assertion (`typeAssert` yields the decoded value on
success and the target type's zero value when the assertion fails), and on
any other length they fail fast with a message reporting the expected and
actual counts. -/
theorem C8_unbox_exact_arity :
    (∀ (α : Type) (t1 : GoType α) (v1 : GoVal),
      Unbox1 t1 [v1] = Except.ok (typeAssert t1 v1)) ∧
    (∀ (α : Type) (t1 : GoType α) (ret : List GoVal), ret.length ≠ 1 →
      Unbox1 t1 ret
        = Except.error ("Warning: expected 1 return value, but got " ++ toString ret.length)) ∧
    (∀ (α β : Type) (t1 : GoType α) (t2 : GoType β) (v1 v2 : GoVal),
      Unbox2 t1 t2 [v1, v2] = Except.ok (typeAssert t1 v1, typeAssert t2 v2)) ∧
    (∀ (α β : Type) (t1 : GoType α) (t2 : GoType β) (ret : List GoVal), ret.length ≠ 2 →
      Unbox2 t1 t2 ret
        = Except.error ("Warning: expected 2 return values, but got " ++ toString ret.length)) ∧
    (∀ (α β γ : Type) (t1 : GoType α) (t2 : GoType β) (t3 : GoType γ) (v1 v2 v3 : GoVal),
      Unbox3 t1 t2 t3 [v1, v2, v3]
        = Except.ok (typeAssert t1 v1, typeAssert t2 v2, typeAssert t3 v3)) ∧
    (∀ (α β γ : Type) (t1 : GoType α) (t2 : GoType β) (t3 : GoType γ) (ret : List GoVal),
      ret.length ≠ 3 →
      Unbox3 t1 t2 t3 ret
        = Except.error ("Warning: expected 3 return values, but got " ++ toString ret.length)) ∧
    (∀ (α β γ δ : Type) (t1 : GoType α) (t2 : GoType β) (t3 : GoType γ) (t4 : GoType δ)
        (v1 v2 v3 v4 : GoVal),
      Unbox4 t1 t2 t3 t4 [v1, v2, v3, v4]
        = Except.ok (typeAssert t1 v1, typeAssert t2 v2, typeAssert t3 v3, typeAssert t4 v4)) ∧
    (∀ (α β γ δ : Type) (t1 : GoType α) (t2 : GoType β) (t3 : GoType γ) (t4 : GoType δ)
        (ret : List GoVal), ret.length ≠ 4 →
      Unbox4 t1 t2 t3 t4 ret
        = Except.error ("Warning: expected 4 return values, but got " ++ toString ret.length)) ∧
    (∀ (α β γ δ ε : Type) (t1 : GoType α) (t2 : GoType β) (t3 : GoType γ) (t4 : GoType δ)
        (t5 : GoType ε) (v1 v2 v3 v4 v5 : GoVal),
      Unbox5 t1 t2 t3 t4 t5 [v1, v2, v3, v4, v5]
        = Except.ok (typeAssert t1 v1, typeAssert t2 v2, typeAssert t3 v3, typeAssert t4 v4,
            typeAssert t5 v5)) ∧
    (∀ (α β γ δ ε : Type) (t1 : GoType α) (t2 : GoType β) (t3 : GoType γ) (t4 : GoType δ)
        (t5 : GoType ε) (ret : List GoVal), ret.length ≠ 5 →
      Unbox5 t1 t2 t3 t4 t5 ret
        = Except.error ("Warning: expected 5 return values, but got " ++ toString ret.length)) ∧
    (∀ (α : Type) (t : GoType α) (v : GoVal), t.dec v = none → typeAssert t v = t.zero) ∧
    (∀ (α : Type) (t : GoType α) (v : GoVal) (a : α), t.dec v = some a → typeAssert t v = a) := by
  refine ⟨?_, ?_, ?_, ?_, ?_, ?_, ?_, ?_, ?_, ?_, ?_, ?_⟩
  · intro α t1 v1; rfl
  · intro α t1 ret hne
    cases ret with
    | nil => rfl
    | cons a r1 =>
      cases r1 with
      | nil => exact absurd rfl hne
      | cons b r2 => rfl
  · intro α β t1 t2 v1 v2; rfl
  · intro α β t1 t2 ret hne
    cases ret with
    | nil => rfl
    | cons a r1 =>
      cases r1 with
      | nil => rfl
      | cons b r2 =>
        cases r2 with
        | nil => exact absurd rfl hne
        | cons c r3 => rfl
  · intro α β γ t1 t2 t3 v1 v2 v3; rfl
  · intro α β γ t1 t2 t3 ret hne
    cases ret with
    | nil => rfl
    | cons a r1 =>
      cases r1 with
      | nil => rfl
      | cons b r2 =>
        cases r2 with
        | nil => rfl
        | cons c r3 =>
          cases r3 with
          | nil => exact absurd rfl hne
          | cons d r4 => rfl
  · intro α β γ δ t1 t2 t3 t4 v1 v2 v3 v4; rfl
  · intro α β γ δ t1 t2 t3 t4 ret hne
    cases ret with
    | nil => rfl
    | cons a r1 =>
      cases r1 with
      | nil => rfl
      | cons b r2 =>
        cases r2 with
        | nil => rfl
        | cons c r3 =>
          cases r3 with
          | nil => rfl
          | cons d r4 =>
            cases r4 with
            | nil => exact absurd rfl hne
            | cons e r5 => rfl
  · intro α β γ δ ε t1 t2 t3 t4 t5 v1 v2 v3 v4 v5; rfl
  · intro α β γ δ ε t1 t2 t3 t4 t5 ret hne
    cases ret with
    | nil => rfl
    | cons a r1 =>
      cases r1 with
      | nil => rfl
      | cons b r2 =>
        cases r2 with
        | nil => rfl
        | cons c r3 =>
          cases r3 with
          | nil => rfl
          | cons d r4 =>
            cases r4 with
            | nil => rfl
            | cons e r5 =>
              cases r5 with
              | nil => exact absurd rfl hne
              | cons f r6 => rfl
  · intro α t v h; simp [typeAssert, h]
  · intro α t v a h; simp [typeAssert, h]

theorem C8_unbox_exact_arity_witness :
    ([GoVal.vint 3, GoVal.vint 4] : List GoVal).length ≠ 1 ∧
    Unbox1 (⟨fun v => match v with | GoVal.vint n => some n | _ => none, 0⟩ : GoType Int)
        [GoVal.vint 3, GoVal.vint 4]
      = Except.error ("Warning: expected 1 return value, but got "
          ++ toString ([GoVal.vint 3, GoVal.vint 4] : List GoVal).length) :=
  ⟨by decide,
    C8_unbox_exact_arity.2.1 Int
      ⟨fun v => match v with | GoVal.vint n => some n | _ => none, 0⟩
      [GoVal.vint 3, GoVal.vint 4] (by decide)⟩

/-- C9: binding a Manager to a carrier and retrieving it is a round trip —
`getManager` on `r.BindTo ctx` yields exactly `r` for every Manager and
carrier — and dispatching through a carrier with no Manager bound yields
empty results with handled = false. -/
theorem C9_bind_retrieve_roundtrip :
    (∀ (r : gsmock.Manager) (ctx : gsmock.Context),
      gsmock.getManager (r.BindTo ctx) = some r) ∧
    (∀ (ctx : gsmock.Context) (testing : Bool) (typ method : String) (params : List GoVal),
      gsmock.getManager ctx = none →
      gsmock.InvokeContext ctx testing typ method params = Except.ok ([], false)) := by
  constructor
  · intro r ctx
    rfl
  · intro ctx testing typ method params hnone
    cases testing with
    | false => rfl
    | true =>
      simp only [gsmock.InvokeContext, hnone]
      rfl

theorem C9_bind_retrieve_roundtrip_witness :
    gsmock.getManager ([] : gsmock.Context) = none ∧
    gsmock.InvokeContext ([] : gsmock.Context) true "T" "M" [] = Except.ok ([], false) :=
  ⟨rfl, C9_bind_retrieve_roundtrip.2 [] true "T" "M" [] rfl⟩

/-- C10: the dispatch engine is inert outside the Go testing framework — with
`testing.Testing()` false, both `Invoke` (for every Manager, present or nil)
and `InvokeContext` (for every carrier) return nil results and
handled = false, so no registered mock can fire in a non-test binary. -/
theorem C10_inert_outside_testing (r : Option gsmock.Manager) (ctx : gsmock.Context)
    (typ method : String) (params : List GoVal) :
    gsmock.Invoke r false typ method params = Except.ok ([], false) ∧
    gsmock.InvokeContext ctx false typ method params = Except.ok ([], false) := by
  constructor
  · cases r <;> rfl
  · rfl
